import Mathlib

/-!
Shallow embedding of the address-book repository (two near-identical
Python variants, `src/privo.py` and `src/telia.py`).

Strings are Lean `String`s (sequences of Unicode code points, matching
Python `str`).  Raised `ValueError`s become the `PyErr` error component of
`Except`.  A `Field`/`Name`/`Phone` object carries no state beyond its
`value` string, so phones are embedded as their value strings; a `Record`
is a name string plus the ordered list of phone value strings; an
`AddressBook` is its underlying `dict`, embedded as an association list
with unique keys, insertion order and in-place overwrite, which is how a
Python `dict` (via `UserDict`) behaves.
-/

/-- A raised Python `ValueError` with its message. -/
inductive PyErr where
  | valueError (msg : String) : PyErr
deriving DecidableEq, Repr

instance {ε α : Type} [DecidableEq ε] [DecidableEq α] : DecidableEq (Except ε α) := fun a b =>
  match a, b with
  | .ok x, .ok y => decidable_of_iff (x = y) (by simp)
  | .error x, .error y => decidable_of_iff (x = y) (by simp)
  | .ok _, .error _ => isFalse (fun h => Except.noConfusion h)
  | .error _, .ok _ => isFalse (fun h => Except.noConfusion h)

/-- Character-level model of CPython `str.isdigit`.  CPython accepts every
character whose Unicode `Numeric_Type` is `Digit` or `Decimal`; this
development only exercises ASCII characters and the fullwidth digits
U+FF10 to U+FF19 (category `Nd`, `Numeric_Type=Decimal`, hence accepted by
CPython), so the model covers exactly those ranges and is faithful on the
characters that appear here. -/
def pyCharIsDigit (c : Char) : Bool :=
  (('0' ≤ c && c ≤ '9') || (0xFF10 ≤ c.val && c.val ≤ 0xFF19))

/-- String-level model of CPython `str.isdigit`: nonempty and every
character a digit character. -/
def pyStrIsDigit (s : String) : Bool :=
  (!(s.data.isEmpty)) && s.data.all pyCharIsDigit

/-- Python `len` of a string: its number of code points. -/
def pyLen (s : String) : Nat :=
  s.data.length

/-- The rule as the spec words it: exactly 10 characters, every character
an ASCII decimal digit between \x27 0 \x27 and \x27 9 \x27.  Spec-side
definition, for comparison with the code's validation. -/
def specPhoneOk (s : String) : Bool :=
  pyLen s == 10 && s.data.all (fun c => '0' ≤ c && c ≤ '9')

/-- The validation both variants perform (`Phone.validate_phone` in
privo, inlined in `Phone.__init__` in telia):
`if not number.isdigit() or len(number) != 10: raise ValueError(...)`. -/
def validatePhone (number : String) : Except PyErr Unit :=
  if !(pyStrIsDigit number) || pyLen number != 10 then
    .error (.valueError "Phone number must contain exactly 10 digits")
  else
    .ok ()

/-- Constructing a `Phone` from a raw string.  In telia `Phone.__init__`
validates then stores; in privo `Field.__init__` assigns through the
overridden `value` setter, which validates then stores.  Both store the
string verbatim on success. -/
def phoneNew (value : String) : Except PyErr String := do
  validatePhone value
  pure value

/-- A `Record`: one name (stored verbatim by `Name`) and the ordered list
of phone values (`self.phones`), identical in both variants. -/
structure Rec where
  name : String
  phones : List String
deriving DecidableEq, Repr

/-- `Record.__init__(name)`: wraps the name, starts with no phones. -/
def recNew (name : String) : Rec := ⟨name, []⟩

/-- `Record.add_phone`: `self.phones.append(Phone(phone))`.  The `Phone`
constructor runs (and may raise) before the append, so on failure the
list is untouched.  Identical in both variants. -/
def addPhone (r : Rec) (phone : String) : Except PyErr Rec := do
  let p ← phoneNew phone
  pure ⟨r.name, r.phones ++ [p]⟩

/-- `Record.remove_phone`:
`self.phones = [p for p in self.phones if p.value != phone]`.
Identical in both variants. -/
def removePhone (r : Rec) (phone : String) : Rec :=
  ⟨r.name, r.phones.filter (fun p => p ≠ phone)⟩

/-- `Record.find_phone`: first entry whose value equals `phone`, else
`None`.  Identical in both variants. -/
def findPhone (r : Rec) (phone : String) : Option String :=
  r.phones.find? (fun p => p = phone)

/-- Python `sep.join(items)`: empty string on an empty list, otherwise
the items with `sep` between consecutive ones. -/
def pyJoin (sep : String) : List String → String
  | [] => ""
  | [p] => p
  | p :: q :: rest => p ++ sep ++ pyJoin sep (q :: rest)

/-- `Record.__str__` in both variants: the fixed prefix, the name, the
fixed separator, then the phone values joined by a semicolon and a
space. -/
def renderRecord (r : Rec) : String :=
  "Contact name: " ++ r.name ++ ", phones: " ++ pyJoin "; " r.phones

namespace Privo

/-- privo `Phone.value` setter: `validate_phone(new_value)` then assign. -/
def setPhoneValue (newValue : String) : Except PyErr String := do
  validatePhone newValue
  pure newValue

/-- Loop body of privo `Record.edit_phone`: scan `self.phones` in order;
at the first entry equal to `old_phone` assign through the validating
`Phone.value` setter and return; if the loop ends, raise the not-found
`ValueError`. -/
def editList (ps : List String) (oldPhone newPhone : String) : Except PyErr (List String) :=
  match ps with
  | [] => .error (.valueError ("Phone number " ++ oldPhone ++ " not found"))
  | p :: rest =>
    if p = oldPhone then do
      let v ← setPhoneValue newPhone
      pure (v :: rest)
    else do
      let rest2 ← editList rest oldPhone newPhone
      pure (p :: rest2)

/-- privo `Record.edit_phone` on a record. -/
def editPhone (r : Rec) (oldPhone newPhone : String) : Except PyErr Rec := do
  let ps ← editList r.phones oldPhone newPhone
  pure ⟨r.name, ps⟩

end Privo

namespace Telia

/-- telia assignment to `phone.value`: a plain attribute write, no
validation (telia's `Field` has no property and telia's `Phone` overrides
nothing outside `__init__`). -/
def setPhoneValue (newValue : String) : String := newValue

/-- Loop body of telia `Record.edit_phone`: scan `self.phones` in order;
at the first entry equal to `old_phone` assign the new value directly
(unvalidated) and return; if the loop ends, raise the not-found
`ValueError`. -/
def editList (ps : List String) (oldPhone newPhone : String) : Except PyErr (List String) :=
  match ps with
  | [] => .error (.valueError ("Phone number " ++ oldPhone ++ " not found in the record"))
  | p :: rest =>
    if p = oldPhone then
      .ok (setPhoneValue newPhone :: rest)
    else do
      let rest2 ← editList rest oldPhone newPhone
      pure (p :: rest2)

/-- telia `Record.edit_phone` on a record. -/
def editPhone (r : Rec) (oldPhone newPhone : String) : Except PyErr Rec := do
  let ps ← editList r.phones oldPhone newPhone
  pure ⟨r.name, ps⟩

end Telia

/-- The `AddressBook`'s underlying `dict` (`self.data` of `UserDict`):
association list with unique keys in insertion order. -/
abbrev Book := List (String × Rec)

/-- `dict.__setitem__`: overwrite in place if the key is present
(a `dict` holds each key once, so the first occurrence is the
occurrence), otherwise append at the end. -/
def dictSet : Book → String → Rec → Book
  | [], k, v => [(k, v)]
  | (k1, v1) :: rest, k, v =>
    if k1 = k then (k, v) :: rest else (k1, v1) :: dictSet rest k v

/-- `AddressBook.add_record`: `self.data[record.name.value] = record`.
Identical in both variants. -/
def addRecord (b : Book) (r : Rec) : Book :=
  dictSet b r.name r

/-- `AddressBook.find`: `self.data.get(name)`.  Identical in both
variants. -/
def findRecord (b : Book) (name : String) : Option Rec :=
  (List.find? (fun kv => kv.1 = name) b).map Prod.snd

/-- `AddressBook.delete`: `if name in self.data: del self.data[name]`.
Deleting an absent key is a no-op; deleting a present key removes the
entry at that key (a `dict` holds each key once).  Identical in both
variants. -/
def deleteRecord : Book → String → Book
  | [], _ => []
  | (k1, v1) :: rest, name =>
    if k1 = name then deleteRecord rest name else (k1, v1) :: deleteRecord rest name

/-- In Python the book holds a reference to the record, so mutating a
found record mutates the book's entry.  In the state-passing embedding
this sharing is the book-level update applying a record mutation at a
key. -/
def modifyRecord (b : Book) (name : String) (f : Rec → Rec) : Book :=
  List.map (fun kv => if kv.1 = name then (kv.1, f kv.2) else kv) b

/-- Spec-side description of `EditPhone`'s success effect: replace the
value of the first entry equal to `old` and keep everything else. -/
def replaceFirst : List String → String → String → List String
  | [], _, _ => []
  | p :: rest, oldPhone, newPhone =>
    if p = oldPhone then newPhone :: rest
    else p :: replaceFirst rest oldPhone newPhone

/-! Helper lemmas (shared by the claim theorems). -/

theorem validatePhone_ok_iff (s : String) :
    validatePhone s = .ok () ↔ (pyStrIsDigit s = true ∧ pyLen s = 10) := by
  rcases hb : pyStrIsDigit s <;> by_cases h2 : pyLen s = 10 <;>
    simp [validatePhone, hb, h2]

theorem validatePhone_error_iff (s : String) :
    validatePhone s = .error (.valueError "Phone number must contain exactly 10 digits") ↔
      ¬(pyStrIsDigit s = true ∧ pyLen s = 10) := by
  rcases hb : pyStrIsDigit s <;> by_cases h2 : pyLen s = 10 <;>
    simp [validatePhone, hb, h2]

theorem phoneNew_cases (s : String) :
    (phoneNew s = .ok s ↔ (pyStrIsDigit s = true ∧ pyLen s = 10)) ∧
    (phoneNew s = .error (.valueError "Phone number must contain exactly 10 digits") ↔
      ¬(pyStrIsDigit s = true ∧ pyLen s = 10)) := by
  rcases hb : pyStrIsDigit s <;> by_cases h2 : pyLen s = 10 <;>
    simp [phoneNew, validatePhone, hb, h2]

theorem telia_editList_not_found (ps : List String) (oldP newP : String) (h : oldP ∉ ps) :
    Telia.editList ps oldP newP =
      .error (.valueError ("Phone number " ++ oldP ++ " not found in the record")) := by
  induction ps with
  | nil => rfl
  | cons p rest ih =>
    have hne : p ≠ oldP := fun he => h (he ▸ List.mem_cons_self p rest)
    have ih2 := ih (fun hm => h (List.mem_cons_of_mem p hm))
    simp [Telia.editList, hne, ih2]

theorem privo_editList_not_found (ps : List String) (oldP newP : String) (h : oldP ∉ ps) :
    Privo.editList ps oldP newP =
      .error (.valueError ("Phone number " ++ oldP ++ " not found")) := by
  induction ps with
  | nil => rfl
  | cons p rest ih =>
    have hne : p ≠ oldP := fun he => h (he ▸ List.mem_cons_self p rest)
    have ih2 := ih (fun hm => h (List.mem_cons_of_mem p hm))
    simp [Privo.editList, hne, ih2]

theorem telia_editList_mem (ps : List String) (oldP newP : String) (h : oldP ∈ ps) :
    Telia.editList ps oldP newP = .ok (replaceFirst ps oldP newP) := by
  induction ps with
  | nil => cases h
  | cons p rest ih =>
    by_cases hp : p = oldP
    · simp [Telia.editList, replaceFirst, hp, Telia.setPhoneValue]
    · have hm : oldP ∈ rest := by
        rcases List.mem_cons.mp h with h1 | h1
        · exact absurd h1.symm hp
        · exact h1
      simp [Telia.editList, replaceFirst, hp, ih hm]

theorem privo_editList_mem (ps : List String) (oldP newP : String) (h : oldP ∈ ps)
    (hv : validatePhone newP = .ok ()) :
    Privo.editList ps oldP newP = .ok (replaceFirst ps oldP newP) := by
  induction ps with
  | nil => cases h
  | cons p rest ih =>
    by_cases hp : p = oldP
    · simp [Privo.editList, replaceFirst, hp, Privo.setPhoneValue, hv]
    · have hm : oldP ∈ rest := by
        rcases List.mem_cons.mp h with h1 | h1
        · exact absurd h1.symm hp
        · exact h1
      simp [Privo.editList, replaceFirst, hp, ih hm]

theorem find_dictSet_self (b : Book) (k : String) (v : Rec) :
    findRecord (dictSet b k v) k = some v := by
  induction b with
  | nil => simp [dictSet, findRecord]
  | cons kv rest ih =>
    rcases kv with ⟨k1, v1⟩
    by_cases hk : k1 = k
    · simp [dictSet, findRecord, hk]
    · simpa [dictSet, findRecord, hk] using ih

theorem find_dictSet_other (b : Book) (k k2 : String) (v : Rec) (h : k2 ≠ k) :
    findRecord (dictSet b k v) k2 = findRecord b k2 := by
  induction b with
  | nil => simp [dictSet, findRecord, Ne.symm h]
  | cons kv rest ih =>
    rcases kv with ⟨k1, v1⟩
    by_cases hk : k1 = k
    · subst hk
      simp [dictSet, findRecord, Ne.symm h]
    · by_cases hq : k1 = k2
      · subst hq
        simp [dictSet, findRecord, h]
      · simpa [dictSet, findRecord, hk, hq] using ih

theorem find_delete_self (b : Book) (n : String) :
    findRecord (deleteRecord b n) n = none := by
  induction b with
  | nil => rfl
  | cons kv rest ih =>
    rcases kv with ⟨k1, v1⟩
    by_cases hn : k1 = n
    · simpa [deleteRecord, hn] using ih
    · simpa [deleteRecord, findRecord, hn] using ih

theorem find_delete_other (b : Book) (n k : String) (h : k ≠ n) :
    findRecord (deleteRecord b n) k = findRecord b k := by
  induction b with
  | nil => rfl
  | cons kv rest ih =>
    rcases kv with ⟨k1, v1⟩
    by_cases hn : k1 = n
    · subst hn
      simpa [deleteRecord, findRecord, Ne.symm h] using ih
    · by_cases hq : k1 = k
      · subst hq
        simp [deleteRecord, findRecord, h]
      · simpa [deleteRecord, findRecord, hn, hq] using ih

theorem delete_absent (b : Book) (n : String) (h : findRecord b n = none) :
    deleteRecord b n = b := by
  induction b with
  | nil => rfl
  | cons kv rest ih =>
    rcases kv with ⟨k1, v1⟩
    simp only [findRecord, Option.map_eq_none', List.find?_eq_none] at h
    have h1 : ¬ (k1 = n) := by
      have := h (k1, v1) (List.mem_cons_self _ _)
      simpa using this
    have h2 : findRecord rest n = none := by
      simp only [findRecord, Option.map_eq_none', List.find?_eq_none]
      intro x hx
      exact h x (List.mem_cons_of_mem _ hx)
    simp [deleteRecord, h1, ih h2]

theorem find_modify_self (b : Book) (n : String) (f : Rec → Rec) :
    findRecord (modifyRecord b n f) n = (findRecord b n).map f := by
  induction b with
  | nil => rfl
  | cons kv rest ih =>
    rcases kv with ⟨k1, v1⟩
    by_cases hn : k1 = n
    · simp [modifyRecord, findRecord, hn]
    · simpa [modifyRecord, findRecord, hn] using ih

/-! Claim theorems. -/

/-- Claim C1 (code bug, telia variant): the exactly-10-digit invariant is
not preserved by every mutation path.  telia's `edit_phone` assigns
`phone.value = new_phone` as a plain attribute write, so the record ends
up holding the non-conforming value "12345"; privo's overriding setter
rejects the same edit. -/
theorem telia_edit_phone_stores_nonconforming_value :
    Telia.editPhone ⟨"Andriy", ["0981234567"]⟩ "0981234567" "12345" =
      .ok ⟨"Andriy", ["12345"]⟩ ∧
    specPhoneOk "12345" = false ∧
    pyLen "12345" = 5 ∧
    Privo.editPhone ⟨"Andriy", ["0981234567"]⟩ "0981234567" "12345" =
      .error (.valueError "Phone number must contain exactly 10 digits") := by
  decide

/-- Claim C2 (code bug, telia variant): `EditPhone(old, new)` with an
invalid `new` must fail with `ValidationError` and keep `old`.  telia
instead succeeds and overwrites the entry with the invalid value "abc";
privo raises the validation `ValueError` as the claim states. -/
theorem telia_edit_phone_invalid_new_no_error :
    Telia.editPhone ⟨"Andriy", ["0631112233", "0509876543"]⟩ "0509876543" "abc" =
      .ok ⟨"Andriy", ["0631112233", "abc"]⟩ ∧
    validatePhone "abc" = .error (.valueError "Phone number must contain exactly 10 digits") ∧
    Privo.editPhone ⟨"Andriy", ["0631112233", "0509876543"]⟩ "0509876543" "abc" =
      .error (.valueError "Phone number must contain exactly 10 digits") := by
  decide

/-- Claim C3 counterexample: the string of ten fullwidth digits U+FF10 to
U+FF19 has length 10, contains no ASCII digit, yet `Phone` construction
succeeds, because Python `str.isdigit` accepts all Unicode digit
characters; the claim requires construction to fail for it. -/
theorem phone_accepts_fullwidth_digits :
    phoneNew "０１２３４５６７８９" = .ok "０１２３４５６７８９" ∧
    pyLen "０１２３４５６７８９" = 10 ∧
    specPhoneOk "０１２３４５６７８９" = false := by
  decide

/-- Claim C3 (amended): constructing a `Phone` from `s` (equally,
assigning through privo's validating `value` setter) succeeds, storing
`s` verbatim, iff `s` is exactly 10 characters and `str.isdigit`-true
(every character a Unicode digit character; on ASCII strings exactly the
0 to 9 rule), and fails with the validation `ValueError` otherwise. -/
theorem phone_construction_iff_python_digits (s : String) :
    (phoneNew s = .ok s ↔ (pyStrIsDigit s = true ∧ pyLen s = 10)) ∧
    (phoneNew s = .error (.valueError "Phone number must contain exactly 10 digits") ↔
      ¬(pyStrIsDigit s = true ∧ pyLen s = 10)) ∧
    Privo.setPhoneValue s = phoneNew s :=
  ⟨(phoneNew_cases s).1, (phoneNew_cases s).2, rfl⟩

/-- Claim C4: in both variants `edit_phone` with an absent `old` raises
the not-found `ValueError` and (the error aborting the operation) leaves
the phone sequence unchanged; with `old` present it replaces exactly the
first matching entry, in scan order (privo when the new value passes
validation, telia unconditionally). -/
theorem editPhone_first_match_or_notFound (r : Rec) (oldP newP : String) :
    (oldP ∉ r.phones →
      Privo.editPhone r oldP newP =
        .error (.valueError ("Phone number " ++ oldP ++ " not found")) ∧
      Telia.editPhone r oldP newP =
        .error (.valueError ("Phone number " ++ oldP ++ " not found in the record"))) ∧
    (oldP ∈ r.phones →
      Telia.editPhone r oldP newP = .ok ⟨r.name, replaceFirst r.phones oldP newP⟩ ∧
      (validatePhone newP = .ok () →
        Privo.editPhone r oldP newP = .ok ⟨r.name, replaceFirst r.phones oldP newP⟩)) := by
  constructor
  · intro h
    constructor
    · simp [Privo.editPhone, privo_editList_not_found r.phones oldP newP h, Except.bind]
    · simp [Telia.editPhone, telia_editList_not_found r.phones oldP newP h, Except.bind]
  · intro h
    constructor
    · simp [Telia.editPhone, telia_editList_mem r.phones oldP newP h, Except.bind]
    · intro hv
      simp [Privo.editPhone, privo_editList_mem r.phones oldP newP h hv, Except.bind]

theorem editPhone_first_match_or_notFound_witness :
    Privo.editPhone ⟨"Andriy", ["0981234567", "0509876543"]⟩ "0981234567" "0631112233" =
      .ok ⟨"Andriy", ["0631112233", "0509876543"]⟩ ∧
    Privo.editPhone ⟨"Andriy", ["0509876543"]⟩ "0000000000" "0631112233" =
      .error (.valueError "Phone number 0000000000 not found") := by
  constructor
  · have h := ((editPhone_first_match_or_notFound
      ⟨"Andriy", ["0981234567", "0509876543"]⟩ "0981234567" "0631112233").2
        (by decide)).2 (by decide)
    exact h.trans (by decide)
  · exact ((editPhone_first_match_or_notFound
      ⟨"Andriy", ["0509876543"]⟩ "0000000000" "0631112233").1 (by decide)).1

/-- Claim C5: `add_record` then `find` under the record's name returns
that record; the returned entry reflects a later in-place mutation of the
stored record; adding a second record under the same name silently
overwrites, so `find` returns only the second. -/
theorem addRecord_find_semantics (b : Book) (r r2 : Rec) (f : Rec → Rec) :
    findRecord (addRecord b r) r.name = some r ∧
    findRecord (modifyRecord (addRecord b r) r.name f) r.name = some (f r) ∧
    (r2.name = r.name → findRecord (addRecord (addRecord b r) r2) r.name = some r2) := by
  refine ⟨find_dictSet_self b r.name r, ?_, ?_⟩
  · rw [addRecord, find_modify_self, find_dictSet_self]
    rfl
  · intro h
    rw [addRecord, addRecord, h, find_dictSet_self]

theorem addRecord_find_semantics_witness :
    findRecord (addRecord (addRecord [] ⟨"Andriy", []⟩) ⟨"Andriy", ["0631112233"]⟩) "Andriy" =
      some ⟨"Andriy", ["0631112233"]⟩ :=
  (addRecord_find_semantics [] ⟨"Andriy", []⟩ ⟨"Andriy", ["0631112233"]⟩ id).2.2 rfl

/-- Claim C6: `add_phone` (identical in both variants) appends the
validated phone at the end of the sequence, and on invalid input raises
the validation `ValueError`, the error aborting before any mutation. -/
theorem addPhone_appends_or_rejects (r : Rec) (raw : String) :
    ((pyStrIsDigit raw = true ∧ pyLen raw = 10) →
      addPhone r raw = .ok ⟨r.name, r.phones ++ [raw]⟩) ∧
    (¬(pyStrIsDigit raw = true ∧ pyLen raw = 10) →
      addPhone r raw = .error (.valueError "Phone number must contain exactly 10 digits")) := by
  constructor
  · intro h
    have hv : validatePhone raw = .ok () := (validatePhone_ok_iff raw).mpr h
    simp [addPhone, phoneNew, hv, Except.bind]
  · intro h
    have hv := (validatePhone_error_iff raw).mpr h
    simp [addPhone, phoneNew, hv, Except.bind]

theorem addPhone_appends_or_rejects_witness :
    addPhone ⟨"Andriy", ["0981234567"]⟩ "0509876543" =
      .ok ⟨"Andriy", ["0981234567", "0509876543"]⟩ ∧
    addPhone ⟨"Andriy", ["0981234567"]⟩ "050" =
      .error (.valueError "Phone number must contain exactly 10 digits") := by
  constructor
  · exact (addPhone_appends_or_rejects ⟨"Andriy", ["0981234567"]⟩ "0509876543").1 (by decide)
  · exact (addPhone_appends_or_rejects ⟨"Andriy", ["0981234567"]⟩ "050").2 (by decide)

/-- Claim C7: `remove_phone` removes every entry equal to `raw`
(duplicates included), keeps the multiplicity of every other value, never
touches the name, and is a no-op raising no error (it is a total
function) when nothing matches. -/
theorem removePhone_removes_all_matching (r : Rec) (raw : String) :
    raw ∉ (removePhone r raw).phones ∧
    (removePhone r raw).name = r.name ∧
    (∀ q, q ≠ raw → ((removePhone r raw).phones.count q = r.phones.count q)) ∧
    (raw ∉ r.phones → removePhone r raw = r) := by
  refine ⟨?_, rfl, ?_, ?_⟩
  · simp [removePhone]
  · intro q hq
    simpa [removePhone] using
      List.count_filter (p := fun p => !decide (p = raw)) (a := q) (l := r.phones)
        (by simp [hq])
  · intro h
    have hf : List.filter (fun p => decide (p ≠ raw)) r.phones = r.phones := by
      refine List.filter_eq_self.mpr ?_
      intro a ha
      simp
      exact fun he => h (he ▸ ha)
    simp only [removePhone, hf]

theorem removePhone_removes_all_matching_witness :
    ("0981234567" ∉
      (removePhone ⟨"A", ["0981234567", "0509876543", "0981234567"]⟩ "0981234567").phones) ∧
    ((removePhone ⟨"A", ["0981234567", "0509876543", "0981234567"]⟩ "0981234567").phones.count
        "0509876543" =
      (["0981234567", "0509876543", "0981234567"] : List String).count "0509876543") ∧
    removePhone ⟨"A", ["0509876543"]⟩ "0000000000" = ⟨"A", ["0509876543"]⟩ := by
  refine ⟨(removePhone_removes_all_matching ⟨"A", ["0981234567", "0509876543", "0981234567"]⟩
    "0981234567").1, ?_, ?_⟩
  · exact (removePhone_removes_all_matching ⟨"A", ["0981234567", "0509876543", "0981234567"]⟩
      "0981234567").2.2.1 "0509876543" (by decide)
  · exact (removePhone_removes_all_matching ⟨"A", ["0509876543"]⟩ "0000000000").2.2.2 (by decide)

/-- Claim C8: `delete` then `find` under the same name returns `None`
(the entry, if any, is removed), and `delete` of an absent name is a
no-op raising no error (it is a total function). -/
theorem delete_then_find_none (b : Book) (n : String) :
    findRecord (deleteRecord b n) n = none ∧
    (findRecord b n = none → deleteRecord b n = b) :=
  ⟨find_delete_self b n, fun h => delete_absent b n h⟩

theorem delete_then_find_none_witness :
    findRecord (deleteRecord [("Andriy", ⟨"Andriy", []⟩), ("Maria", ⟨"Maria", []⟩)] "Maria")
      "Maria" = none ∧
    deleteRecord [("Andriy", ⟨"Andriy", []⟩)] "Maria" = [("Andriy", ⟨"Andriy", []⟩)] := by
  constructor
  · exact (delete_then_find_none
      [("Andriy", ⟨"Andriy", []⟩), ("Maria", ⟨"Maria", []⟩)] "Maria").1
  · exact (delete_then_find_none [("Andriy", ⟨"Andriy", []⟩)] "Maria").2 (by decide)

/-- Claim C9: `Record.__str__` is exactly the fixed prefix, the name, the
separator ", phones: " and the phone values joined by "; " in sequence
order; an empty phone list leaves an empty tail, and the spec's concrete
scenario renders as stated. -/
theorem renderRecord_format (n p q : String) (ps : List String) :
    renderRecord ⟨n, ps⟩ = "Contact name: " ++ n ++ ", phones: " ++ pyJoin "; " ps ∧
    renderRecord ⟨n, []⟩ = "Contact name: " ++ n ++ ", phones: " ∧
    renderRecord ⟨n, [p]⟩ = "Contact name: " ++ n ++ ", phones: " ++ p ∧
    renderRecord ⟨n, [p, q]⟩ = "Contact name: " ++ n ++ ", phones: " ++ p ++ "; " ++ q ∧
    renderRecord ⟨"Andriy", ["0631112233", "0509876543"]⟩ =
      "Contact name: Andriy, phones: 0631112233; 0509876543" := by
  refine ⟨rfl, ?_, rfl, ?_, by decide⟩
  · simp [renderRecord, pyJoin]
  · simp [renderRecord, pyJoin, String.append_assoc]

/-- Claim C10: `add_record` and `delete` are frame-preserving: lookup at
any key other than the one being written or deleted is unchanged (the
record stored there stays present and unmodified). -/
theorem book_ops_frame (b : Book) (r : Rec) (n k : String) :
    (k ≠ r.name → findRecord (addRecord b r) k = findRecord b k) ∧
    (k ≠ n → findRecord (deleteRecord b n) k = findRecord b k) :=
  ⟨fun h => find_dictSet_other b r.name k r h, fun h => find_delete_other b n k h⟩

theorem book_ops_frame_witness :
    findRecord (addRecord [("Andriy", ⟨"Andriy", []⟩)] ⟨"Maria", []⟩) "Andriy" =
      some ⟨"Andriy", []⟩ ∧
    findRecord (deleteRecord [("Andriy", ⟨"Andriy", []⟩), ("Maria", ⟨"Maria", []⟩)] "Maria")
      "Andriy" = some ⟨"Andriy", []⟩ := by
  constructor
  · have h := (book_ops_frame [("Andriy", ⟨"Andriy", []⟩)] ⟨"Maria", []⟩ "x" "Andriy").1
      (by decide)
    exact h.trans (by decide)
  · have h := (book_ops_frame [("Andriy", ⟨"Andriy", []⟩), ("Maria", ⟨"Maria", []⟩)]
      ⟨"", []⟩ "Maria" "Andriy").2 (by decide)
    exact h.trans (by decide)
